import Mathlib

/-!
Shallow embedding of `lib/DriverTool/swift_parse_test_main.cpp`, the parser
performance measurement tool, together with proofs about its measurement
and aggregation engine.

Modelling conventions:

* Machine integers become `Nat`; the `unsigned int` accumulators of
  `swift_parse_test_main` reduce modulo `2^32` at every addition, written
  explicitly as `% 4294967296`.  The `uintmax_t` products in `perform`
  are not reduced modulo `2^64` because every caller passes totals below
  `2^32`, so `totalBytes * 10^9 < 2^64` never wraps.
* `llvm::StringRef` paths become `List Char`; `StringRef::endswith`
  becomes a suffix test on character lists.
* `llvm::MemoryBuffer` becomes a `Buffer`: a path plus its byte contents.
* The behaviour of `Executor::performParse` (an external parser whose
  outcome and cost the harness merely observes) is abstracted as an
  `Oracle`: for a given options value, the k-th parse call of a run has an
  outcome, a wall-clock cost and a CPU-clock cost.  The two clocks that
  `measure` samples are world states that advance by exactly those costs
  at each call, so `measure`'s before/after sampling is modelled
  faithfully rather than assumed.
* `llvm::Error` becomes `Except String`, the message being what
  `handleAllErrors` would print.
* Loop-local accumulators (`tDuration`, `cDuration`, the parse-call
  counter implicit in the loop structure) are exposed as ghost fields of
  `perform`'s result so their final values can be stated; they mirror the
  local variables of the C++ function at its exit point.
-/

namespace SwiftParseTest

/-- The `ExecuteOptionFlag` option set: currently a single flag,
`SkipBodies` (enable body skipping). -/
structure ExecuteOptions where
  skipBodies : Bool
deriving DecidableEq, Repr

/-- The `Executor` enum selecting a parser back end. -/
inductive Executor where
  | SwiftParser
  | LibParse
deriving DecidableEq, Repr

/-- One loaded source file: `llvm::MemoryBuffer` contents plus the path it
was loaded from (its buffer identifier). Bytes are modelled as `Nat`. -/
structure Buffer where
  path : List Char
  content : List Nat
deriving DecidableEq, Repr

/-- Number of bytes in a buffer, `MemoryBuffer::getBufferSize`. -/
def Buffer.size (b : Buffer) : Nat := b.content.length

/-- Number of newline bytes in a buffer, `buffer->getBuffer().count('\n')`.
The byte value of the newline character is 10. -/
def Buffer.newlines (b : Buffer) : Nat := b.content.count 10

/-- The character list of the literal ".swift". -/
def dotSwift : List Char := ['.', 's', 'w', 'i', 'f', 't']

/-- `llvm::StringRef::endswith`: does `path` end with `suffix`? -/
def endswith (path suffix : List Char) : Bool :=
  suffix.isSuffixOf path

/-- A filesystem tree as seen by `_loadSwiftFilesRecursively`.  A `file`
node carries the contents `llvm::MemoryBuffer::getFile` would return, or
`none` when the path is unreadable (`getFile` fails).  A `dir` node is a
path for which `llvm::sys::fs::is_directory` holds, with the children its
`directory_iterator` enumerates, in enumeration order (a directory whose
iteration fails enumerates no further children, matching the ignored
`std::error_code`). -/
inductive FSNode where
  | file (path : List Char) (content : Option (List Nat))
  | dir (path : List Char) (children : List FSNode)

mutual

/-- `_loadSwiftFilesRecursively`: directories are recursed into; a
non-directory is loaded only when its path ends with ".swift" and reading
succeeds; everything else is skipped silently.  The C++ function appends
into an out-parameter vector, modelled by threading the buffer list. -/
def loadSwiftFilesRecursively : FSNode → List Buffer → List Buffer
  | .dir _ children, buffers => loadSwiftFilesList children buffers
  | .file p c, buffers =>
      if endswith p dotSwift then
        match c with
        | some bytes => buffers ++ [⟨p, bytes⟩]
        | none => buffers
      else
        buffers

/-- Iteration over the entries of a directory (or over the input paths in
`loadSources`), in order, each appending into the shared vector. -/
def loadSwiftFilesList : List FSNode → List Buffer → List Buffer
  | [], buffers => buffers
  | n :: rest, buffers => loadSwiftFilesList rest (loadSwiftFilesRecursively n buffers)

end

/-- `loadSources`: load all '.swift' files reachable from the input paths
into `buffers`. -/
def loadSources (filePaths : List FSNode) (buffers : List Buffer) : List Buffer :=
  loadSwiftFilesList filePaths buffers

/-! Timing probe. `measure` samples `std::clock()` and
`steady_clock::now()` before and after running `body` once.  The clocks
are functions of an abstract world state `σ` that `body` advances. -/

/-- The two clocks read by `measure`, as observations of a world state:
`clock` is `std::clock()` in ticks, `steadyNow` is
`steady_clock::now()` in nanoseconds since some epoch. -/
structure Clocks (σ : Type) where
  clock : σ → Nat
  steadyNow : σ → Nat

/-- Result of one `measure` call: the world after the single `body`
invocation, plus the wall-clock and CPU durations in nanoseconds. -/
structure Measured (σ : Type) where
  state : σ
  wall : Nat
  cpu : Nat
deriving Repr

/-- The tick-to-nanosecond factor
`CLOCKS_PER_SEC > 0 ? den / CLOCKS_PER_SEC / num : 0` for
`Duration = nanoseconds` (`den = 10^9`, `num = 1`). -/
def clockMultiply (clocksPerSec : Nat) : Nat :=
  if 0 < clocksPerSec then 1000000000 / clocksPerSec / 1 else 0

/-- The timing probe `measure`: sample both clocks, run `body` once,
sample both clocks again; wall duration is the steady-clock difference,
CPU duration is the `std::clock` tick difference scaled by
`clockMultiply` (the `duration_cast`s are the identity at nanosecond
resolution). -/
def measure {σ : Type} (clocksPerSec : Nat) (C : Clocks σ) (body : σ → σ)
    (s : σ) : Measured σ :=
  let cStart := C.clock s
  let tStart := C.steadyNow s
  let s1 := body s
  let cEnd := C.clock s1
  let tEnd := C.steadyNow s1
  { state := s1
    wall := tEnd - tStart
    cpu := (cEnd - cStart) * clockMultiply clocksPerSec }

/-! Run aggregation: the `perform` function. -/

/-- Abstraction of one executor's `performParse` behaviour under a fixed
options value: the k-th parse call of a run (counting from 0) has an
outcome, consumes `wallNs opts k` nanoseconds of wall-clock time and
`ticks opts k` CPU clock ticks. -/
structure Oracle where
  outcome : ExecuteOptions → Nat → Except String Unit
  wallNs : ExecuteOptions → Nat → Nat
  ticks : ExecuteOptions → Nat → Nat

/-- Sum of `f 0 + f 1 + ... + f (n-1)`. -/
def sumTo (f : Nat → Nat) : Nat → Nat
  | 0 => 0
  | n + 1 => sumTo f n + f n

/-- World state during a `perform` run: how many parse calls have
completed, and the current value of the `err` local variable. -/
structure PWorld where
  k : Nat
  err : Except String Unit
deriving Repr

/-- The clocks of a `perform` run: after `k` parse calls, the steady
clock has advanced by the wall time of those calls and `std::clock` by
their ticks (the harness itself does no measurable work in between). -/
def oracleClocks (o : Oracle) (opts : ExecuteOptions) : Clocks PWorld :=
  { clock := fun w => sumTo (o.ticks opts) w.k
    steadyNow := fun w => sumTo (o.wallNs opts) w.k }

/-- The closure passed to `measure`: run one parse call and store its
outcome in `err`. -/
def parseBody (o : Oracle) (opts : ExecuteOptions) : PWorld → PWorld :=
  fun w => { k := w.k + 1, err := o.outcome opts w.k }

/-- CPU nanoseconds of the k-th parse call as `measure` reports them. -/
def cpuNs (o : Oracle) (opts : ExecuteOptions) (clocksPerSec : Nat) (k : Nat) : Nat :=
  o.ticks opts k * clockMultiply clocksPerSec

/-- State of `perform`'s double loop: the world plus the `tDuration` and
`cDuration` accumulators (nanoseconds). -/
structure LoopState where
  w : PWorld
  tDur : Nat
  cDur : Nat
deriving Repr

/-- The inner loop of `perform` over the corpus: measure one parse call
per buffer; on `if (err) return err` propagate the failure (with the loop
state at that point, for observation), otherwise add the measured wall
and CPU durations to the accumulators and continue. -/
def performInner (o : Oracle) (opts : ExecuteOptions) (clocksPerSec : Nat) :
    List Buffer → LoopState → Except (String × LoopState) LoopState
  | [], st => .ok st
  | _ :: rest, st =>
      let m := measure clocksPerSec (oracleClocks o opts) (parseBody o opts) st.w
      match m.state.err with
      | .error e => .error (e, { w := m.state, tDur := st.tDur, cDur := st.cDur })
      | .ok _ =>
          performInner o opts clocksPerSec rest
            { w := m.state, tDur := st.tDur + m.wall, cDur := st.cDur + m.cpu }

/-- The outer loop of `perform`: `iteration` passes over the corpus. -/
def performIter (o : Oracle) (opts : ExecuteOptions) (clocksPerSec : Nat)
    (buffers : List Buffer) : Nat → LoopState → Except (String × LoopState) LoopState
  | 0, st => .ok st
  | n + 1, st =>
      match performInner o opts clocksPerSec buffers st with
      | .error p => .error p
      | .ok st1 => performIter o opts clocksPerSec buffers n st1

/-- The numbers `perform` prints for one executor: the two
`duration_cast<milliseconds>` displays and, only when the accumulated CPU
time is positive, the byte and line throughputs. -/
structure Report where
  wallMs : Nat
  cpuMs : Nat
  throughput : Option (Nat × Nat)
deriving DecidableEq, Repr

/-- Observable result of one `perform` run: the returned value, plus the
final values of the parse-call counter and the two duration accumulators
(ghost observations of the loop locals at exit). -/
structure PerformOut where
  result : Except String Report
  calls : Nat
  tDur : Nat
  cDur : Nat

/-- The measurement driver `perform`: run the double loop from zeroed
accumulators; on success convert the totals to milliseconds and, when the
accumulated CPU time is strictly positive, derive the throughputs
`total * den / cDuration` with `den = 10^9` (CPU time, not wall time, is
the denominator). -/
def perform (o : Oracle) (opts : ExecuteOptions) (clocksPerSec : Nat)
    (buffers : List Buffer) (iteration : Nat) (totalBytes totalLines : Nat) :
    PerformOut :=
  let st0 : LoopState := { w := { k := 0, err := .ok () }, tDur := 0, cDur := 0 }
  match performIter o opts clocksPerSec buffers iteration st0 with
  | .error (e, st) =>
      { result := .error e, calls := st.w.k, tDur := st.tDur, cDur := st.cDur }
  | .ok st =>
      let tDisplay := st.tDur / 1000000
      let cDisplay := st.cDur / 1000000
      let throughput :=
        if 0 < st.cDur then
          some (totalBytes * 1000000000 / st.cDur, totalLines * 1000000000 / st.cDur)
        else
          none
      { result := .ok { wallMs := tDisplay, cpuMs := cDisplay, throughput := throughput }
        calls := st.w.k, tDur := st.tDur, cDur := st.cDur }

/-! The top-level driver `swift_parse_test_main`. -/

/-- Corpus byte total as `swift_parse_test_main` accumulates it: an
`unsigned int` (32 bits), so every addition reduces modulo `2^32`. -/
def byteCount (buffers : List Buffer) : Nat :=
  buffers.foldl (fun acc b => (acc + b.size) % 4294967296) 0

/-- Corpus newline total, accumulated in the same 32-bit way. -/
def lineCount (buffers : List Buffer) : Nat :=
  buffers.foldl (fun acc b => (acc + b.newlines) % 4294967296) 0

/-- The executor dispatch loop of `swift_parse_test_main`: run `perform`
for each selected executor in order; record each processed executor with
its result; after a failing executor the `break` leaves the loop, so
nothing after it is processed.  Returns the trace of processed executors
and the pending `err` value after the loop. -/
def runExecutors (oracleOf : Executor → Oracle) (opts : ExecuteOptions)
    (clocksPerSec : Nat) (buffers : List Buffer) (iterations : Nat)
    (totalBytes totalLines : Nat) :
    List Executor → List (Executor × Except String Report) × Option String
  | [] => ([], none)
  | m :: rest =>
      match (perform (oracleOf m) opts clocksPerSec buffers iterations
               totalBytes totalLines).result with
      | .error e => ([(m, .error e)], some e)
      | .ok r =>
          let t := runExecutors oracleOf opts clocksPerSec buffers iterations
                     totalBytes totalLines rest
          ((m, .ok r) :: t.1, t.2)

/-- Observable outcome of `swift_parse_test_main`: the per-executor
results in processing order, the lines written to the error stream, and
the process exit status. -/
structure MainResult where
  trace : List (Executor × Except String Report)
  errLines : List String
  status : Nat

/-- `swift_parse_test_main`: build the options value from the
`-skip-bodies` flag, load the corpus from the input paths, accumulate the
32-bit corpus statistics, run the selected executors in order, and on a
pending error print `error: <message>` to the error stream and exit 1,
otherwise exit 0.  The parser back ends reached through the dispatch
`switch` are abstracted by `oracleOf`. -/
def swift_parse_test_main (oracleOf : Executor → Oracle) (clocksPerSec : Nat)
    (executors : List Executor) (iterations : Nat) (skipBodies : Bool)
    (inputPaths : List FSNode) : MainResult :=
  let execOptions : ExecuteOptions := { skipBodies := skipBodies }
  let buffers := loadSources inputPaths []
  let bc := byteCount buffers
  let lc := lineCount buffers
  let t := runExecutors oracleOf execOptions clocksPerSec buffers iterations bc lc
             executors
  match t.2 with
  | some msg => { trace := t.1, errLines := ["error: " ++ msg], status := 1 }
  | none => { trace := t.1, errLines := [], status := 0 }

/-! Helper lemmas about the timing probe and the aggregation loops. -/

lemma sumTo_succ (f : Nat → Nat) (n : Nat) : sumTo f (n + 1) = sumTo f n + f n := rfl

/-- Around the k-th parse call, `measure` reports exactly that call's
wall nanoseconds and its ticks scaled to nanoseconds, and the world
advances by one call whose outcome lands in `err`. -/
lemma measure_parseBody (o : Oracle) (opts : ExecuteOptions) (cps : Nat) (w : PWorld) :
    measure cps (oracleClocks o opts) (parseBody o opts) w =
      { state := { k := w.k + 1, err := o.outcome opts w.k }
        wall := o.wallNs opts w.k
        cpu := cpuNs o opts cps w.k } := by
  simp [measure, oracleClocks, parseBody, cpuNs, sumTo_succ, Nat.add_sub_cancel_left]

/-- Invariant run of the inner loop, all parse calls succeeding: starting
after `w.k` calls with accumulators equal to the sums so far, the loop
completes the whole buffer list, advancing the call counter and the
accumulators accordingly. -/
lemma performInner_ok (o : Oracle) (opts : ExecuteOptions) (cps : Nat) :
    ∀ (bufs : List Buffer) (w : PWorld),
      (∀ i, i < bufs.length → o.outcome opts (w.k + i) = .ok ()) →
      ∃ e, performInner o opts cps bufs
          ⟨w, sumTo (o.wallNs opts) w.k, sumTo (cpuNs o opts cps) w.k⟩ =
        .ok ⟨⟨w.k + bufs.length, e⟩,
             sumTo (o.wallNs opts) (w.k + bufs.length),
             sumTo (cpuNs o opts cps) (w.k + bufs.length)⟩ := by
  intro bufs
  induction bufs with
  | nil =>
      intro w _
      exact ⟨w.err, by simp [performInner]⟩
  | cons b rest ih =>
      intro w h
      have h0 : o.outcome opts w.k = .ok () := by
        have := h 0 (by simp)
        simpa using this
      have hrest : ∀ i, i < rest.length →
          o.outcome opts (w.k + 1 + i) = .ok () := by
        intro i hi
        have := h (i + 1) (by simpa using Nat.succ_lt_succ hi)
        simpa [Nat.add_assoc, Nat.add_comm 1 i] using this
      obtain ⟨e, he⟩ := ih ⟨w.k + 1, .ok ()⟩ hrest
      refine ⟨e, ?_⟩
      simp only [performInner, measure_parseBody, h0]
      rw [← sumTo_succ, ← sumTo_succ]
      rw [he]
      simp [Nat.add_assoc, Nat.add_comm 1 rest.length]

/-- Invariant run of the inner loop hitting the first failure at relative
position `j`: the loop stops at that call, propagates its message, and
the accumulators still hold only the sums over the `j` successful calls
before it, while the counter includes the failing call. -/
lemma performInner_err (o : Oracle) (opts : ExecuteOptions) (cps : Nat) :
    ∀ (bufs : List Buffer) (w : PWorld) (j : Nat) (msg : String),
      j < bufs.length →
      o.outcome opts (w.k + j) = .error msg →
      (∀ i, i < j → o.outcome opts (w.k + i) = .ok ()) →
      performInner o opts cps bufs
          ⟨w, sumTo (o.wallNs opts) w.k, sumTo (cpuNs o opts cps) w.k⟩ =
        .error (msg, ⟨⟨w.k + j + 1, .error msg⟩,
                      sumTo (o.wallNs opts) (w.k + j),
                      sumTo (cpuNs o opts cps) (w.k + j)⟩) := by
  intro bufs
  induction bufs with
  | nil =>
      intro w j msg hj
      exact absurd hj (by simp)
  | cons b rest ih =>
      intro w j msg hj herr hok
      cases j with
      | zero =>
          have h0 : o.outcome opts w.k = .error msg := by simpa using herr
          simp [performInner, measure_parseBody, h0]
      | succ j' =>
          have h0 : o.outcome opts w.k = .ok () := by
            have := hok 0 (Nat.succ_pos j')
            simpa using this
          have herr' : o.outcome opts (w.k + 1 + j') = .error msg := by
            simpa [Nat.add_assoc, Nat.add_comm 1 j'] using herr
          have hok' : ∀ i, i < j' → o.outcome opts (w.k + 1 + i) = .ok () := by
            intro i hi
            have := hok (i + 1) (Nat.succ_lt_succ hi)
            simpa [Nat.add_assoc, Nat.add_comm 1 i] using this
          have hj' : j' < rest.length := by simpa using Nat.lt_of_succ_lt_succ hj
          have := ih ⟨w.k + 1, .ok ()⟩ j' msg hj' herr' hok'
          simp only [performInner, measure_parseBody, h0]
          rw [← sumTo_succ, ← sumTo_succ]
          rw [this]
          simp [Nat.add_assoc, Nat.add_comm 1 j']

/-- The outer loop on an empty corpus does nothing, however many
iterations are requested. -/
lemma performIter_nil (o : Oracle) (opts : ExecuteOptions) (cps : Nat) :
    ∀ (n : Nat) (st : LoopState), performIter o opts cps [] n st = .ok st := by
  intro n
  induction n with
  | zero => intro st; rfl
  | succ n ih => intro st; simpa [performIter, performInner] using ih st

/-- Invariant run of the outer loop, all parse calls succeeding. -/
lemma performIter_ok (o : Oracle) (opts : ExecuteOptions) (cps : Nat)
    (bufs : List Buffer) :
    ∀ (n : Nat) (w : PWorld),
      (∀ i, i < n * bufs.length → o.outcome opts (w.k + i) = .ok ()) →
      ∃ e, performIter o opts cps bufs n
          ⟨w, sumTo (o.wallNs opts) w.k, sumTo (cpuNs o opts cps) w.k⟩ =
        .ok ⟨⟨w.k + n * bufs.length, e⟩,
             sumTo (o.wallNs opts) (w.k + n * bufs.length),
             sumTo (cpuNs o opts cps) (w.k + n * bufs.length)⟩ := by
  intro n
  induction n with
  | zero =>
      intro w _
      exact ⟨w.err, by simp [performIter]⟩
  | succ n ih =>
      intro w h
      have hmul : (n + 1) * bufs.length = n * bufs.length + bufs.length :=
        Nat.succ_mul n bufs.length
      have hfirst : ∀ i, i < bufs.length → o.outcome opts (w.k + i) = .ok () := by
        intro i hi
        exact h i (by omega)
      obtain ⟨e1, he1⟩ := performInner_ok o opts cps bufs w hfirst
      have hrest : ∀ i, i < n * bufs.length →
          o.outcome opts (w.k + bufs.length + i) = .ok () := by
        intro i hi
        have := h (bufs.length + i) (by omega)
        simpa [Nat.add_assoc] using this
      obtain ⟨e2, he2⟩ := ih ⟨w.k + bufs.length, e1⟩ hrest
      refine ⟨e2, ?_⟩
      simp only [performIter, he1]
      rw [he2]
      have : w.k + bufs.length + n * bufs.length = w.k + (n + 1) * bufs.length := by
        omega
      rw [this]

/-- Invariant run of the outer loop hitting the first failure at absolute
relative position `j` among the planned `n * bufs.length` calls. -/
lemma performIter_err (o : Oracle) (opts : ExecuteOptions) (cps : Nat)
    (bufs : List Buffer) :
    ∀ (n : Nat) (w : PWorld) (j : Nat) (msg : String),
      j < n * bufs.length →
      o.outcome opts (w.k + j) = .error msg →
      (∀ i, i < j → o.outcome opts (w.k + i) = .ok ()) →
      performIter o opts cps bufs n
          ⟨w, sumTo (o.wallNs opts) w.k, sumTo (cpuNs o opts cps) w.k⟩ =
        .error (msg, ⟨⟨w.k + j + 1, .error msg⟩,
                      sumTo (o.wallNs opts) (w.k + j),
                      sumTo (cpuNs o opts cps) (w.k + j)⟩) := by
  intro n
  induction n with
  | zero =>
      intro w j msg hj
      exact absurd hj (by simp)
  | succ n ih =>
      intro w j msg hj herr hok
      have hmul : (n + 1) * bufs.length = n * bufs.length + bufs.length :=
        Nat.succ_mul n bufs.length
      by_cases hjlen : j < bufs.length
      · have := performInner_err o opts cps bufs w j msg hjlen herr hok
        simp only [performIter, this]
      · push_neg at hjlen
        have hfirst : ∀ i, i < bufs.length → o.outcome opts (w.k + i) = .ok () := by
          intro i hi
          exact hok i (by omega)
        obtain ⟨e1, he1⟩ := performInner_ok o opts cps bufs w hfirst
        have herr' : o.outcome opts (w.k + bufs.length + (j - bufs.length)) =
            .error msg := by
          have : w.k + bufs.length + (j - bufs.length) = w.k + j := by omega
          rw [this]
          exact herr
        have hok' : ∀ i, i < j - bufs.length →
            o.outcome opts (w.k + bufs.length + i) = .ok () := by
          intro i hi
          have := hok (bufs.length + i) (by omega)
          simpa [Nat.add_assoc] using this
        have := ih ⟨w.k + bufs.length, e1⟩ (j - bufs.length) msg (by omega)
          herr' hok'
        simp only [performIter, he1]
        rw [this]
        have harith : w.k + bufs.length + (j - bufs.length) = w.k + j := by omega
        rw [harith]

lemma sumTo_zero (f : Nat → Nat) : sumTo f 0 = 0 := rfl

/-- A complete failure-free `perform` run: `n * bufs.length` calls, the
accumulators hold the sums of the per-call durations, and the report is
derived from them. -/
lemma perform_ok (o : Oracle) (opts : ExecuteOptions) (cps : Nat)
    (bufs : List Buffer) (n tb tl : Nat)
    (h : ∀ i, i < n * bufs.length → o.outcome opts i = .ok ()) :
    perform o opts cps bufs n tb tl =
      { result := .ok
          { wallMs := sumTo (o.wallNs opts) (n * bufs.length) / 1000000
            cpuMs := sumTo (cpuNs o opts cps) (n * bufs.length) / 1000000
            throughput :=
              if 0 < sumTo (cpuNs o opts cps) (n * bufs.length) then
                some (tb * 1000000000 / sumTo (cpuNs o opts cps) (n * bufs.length),
                      tl * 1000000000 / sumTo (cpuNs o opts cps) (n * bufs.length))
              else none }
        calls := n * bufs.length
        tDur := sumTo (o.wallNs opts) (n * bufs.length)
        cDur := sumTo (cpuNs o opts cps) (n * bufs.length) } := by
  obtain ⟨e, he⟩ := performIter_ok o opts cps bufs n ⟨0, .ok ()⟩
    (by intro i hi; simpa using h i hi)
  simp only [sumTo_zero, Nat.zero_add] at he
  simp only [perform]
  rw [he]

/-- A `perform` run whose first parse failure is call `j` (0-based):
the failure propagates, the failing call is counted, and the
accumulators hold only the sums over the `j` successful calls. -/
lemma perform_err (o : Oracle) (opts : ExecuteOptions) (cps : Nat)
    (bufs : List Buffer) (n tb tl j : Nat) (msg : String)
    (hj : j < n * bufs.length)
    (herr : o.outcome opts j = .error msg)
    (hok : ∀ i, i < j → o.outcome opts i = .ok ()) :
    perform o opts cps bufs n tb tl =
      { result := .error msg
        calls := j + 1
        tDur := sumTo (o.wallNs opts) j
        cDur := sumTo (cpuNs o opts cps) j } := by
  have he := performIter_err o opts cps bufs n ⟨0, .ok ()⟩ j msg
    (by simpa using hj) (by simpa using herr)
    (by intro i hi; simpa using hok i hi)
  simp only [sumTo_zero, Nat.zero_add] at he
  simp only [perform]
  rw [he]

/-- Equation lemma: `perform` when the loop fails. -/
lemma perform_eq_error (o : Oracle) (opts : ExecuteOptions) (cps : Nat)
    (bufs : List Buffer) (n tb tl : Nat) (e : String) (st : LoopState)
    (h : performIter o opts cps bufs n ⟨⟨0, .ok ()⟩, 0, 0⟩ = .error (e, st)) :
    perform o opts cps bufs n tb tl =
      { result := .error e, calls := st.w.k, tDur := st.tDur, cDur := st.cDur } := by
  simp only [perform]
  rw [h]

/-- Equation lemma: `perform` when the loop completes. -/
lemma perform_eq_ok (o : Oracle) (opts : ExecuteOptions) (cps : Nat)
    (bufs : List Buffer) (n tb tl : Nat) (st : LoopState)
    (h : performIter o opts cps bufs n ⟨⟨0, .ok ()⟩, 0, 0⟩ = .ok st) :
    perform o opts cps bufs n tb tl =
      { result := .ok
          { wallMs := st.tDur / 1000000
            cpuMs := st.cDur / 1000000
            throughput :=
              if 0 < st.cDur then
                some (tb * 1000000000 / st.cDur, tl * 1000000000 / st.cDur)
              else none }
        calls := st.w.k, tDur := st.tDur, cDur := st.cDur } := by
  simp only [perform]
  rw [h]

/-- Whenever `perform` returns a report, its printed fields are derived
from the final accumulator values: milliseconds by truncating division,
throughput present exactly when the CPU accumulator is positive. -/
lemma perform_result_ok (o : Oracle) (opts : ExecuteOptions) (cps : Nat)
    (bufs : List Buffer) (n tb tl : Nat) (r : Report)
    (h : (perform o opts cps bufs n tb tl).result = .ok r) :
    r.wallMs = (perform o opts cps bufs n tb tl).tDur / 1000000 ∧
    r.cpuMs = (perform o opts cps bufs n tb tl).cDur / 1000000 ∧
    r.throughput =
      (if 0 < (perform o opts cps bufs n tb tl).cDur then
        some (tb * 1000000000 / (perform o opts cps bufs n tb tl).cDur,
              tl * 1000000000 / (perform o opts cps bufs n tb tl).cDur)
      else none) := by
  rcases hiter : performIter o opts cps bufs n ⟨⟨0, .ok ()⟩, 0, 0⟩ with p | st
  · obtain ⟨e, st1⟩ := p
    rw [perform_eq_error o opts cps bufs n tb tl e st1 hiter] at h
    simp at h
  · rw [perform_eq_ok o opts cps bufs n tb tl st hiter] at h ⊢
    simp at h
    subst h
    simp

/-- An unreadable file adds nothing to the corpus. -/
lemma loadSwiftFilesRecursively_unreadable (p : List Char) (bufs : List Buffer) :
    loadSwiftFilesRecursively (.file p none) bufs = bufs := by
  simp [loadSwiftFilesRecursively]

/-- Loading a concatenation of path lists loads the first part, then the
second into the result. -/
lemma loadSwiftFilesList_append :
    ∀ (xs ys : List FSNode) (bufs : List Buffer),
      loadSwiftFilesList (xs ++ ys) bufs =
        loadSwiftFilesList ys (loadSwiftFilesList xs bufs) := by
  intro xs
  induction xs with
  | nil => intro ys bufs; rfl
  | cons x rest ih =>
      intro ys bufs
      simp only [List.cons_append, loadSwiftFilesList]
      exact ih ys (loadSwiftFilesRecursively x bufs)

/-- Folding 32-bit wrapping additions of `g` over a list equals the true
sum reduced modulo `2^32`. -/
lemma foldl_mod_eq (g : Buffer → Nat) :
    ∀ (l : List Buffer) (acc : Nat), acc < 4294967296 →
      l.foldl (fun a b => (a + g b) % 4294967296) acc =
        (acc + (l.map g).sum) % 4294967296 := by
  intro l
  induction l with
  | nil =>
      intro acc hacc
      simp [Nat.mod_eq_of_lt hacc]
  | cons b rest ih =>
      intro acc hacc
      have hlt : (acc + g b) % 4294967296 < 4294967296 :=
        Nat.mod_lt _ (by omega)
      simp only [List.foldl_cons, List.map_cons, List.sum_cons]
      rw [ih _ hlt, Nat.mod_add_mod]
      congr 1
      omega

/-- `byteCount` is the true corpus byte total reduced modulo `2^32`. -/
lemma byteCount_eq (buffers : List Buffer) :
    byteCount buffers = (buffers.map Buffer.size).sum % 4294967296 := by
  simpa using foldl_mod_eq Buffer.size buffers 0 (by omega)

/-- `lineCount` is the true corpus newline total reduced modulo `2^32`. -/
lemma lineCount_eq (buffers : List Buffer) :
    lineCount buffers = (buffers.map Buffer.newlines).sum % 4294967296 := by
  simpa using foldl_mod_eq Buffer.newlines buffers 0 (by omega)

/-- When every selected executor's run succeeds, the dispatch loop
processes all of them in order and leaves no pending error. -/
lemma runExecutors_all_ok (oracleOf : Executor → Oracle) (opts : ExecuteOptions)
    (cps : Nat) (bufs : List Buffer) (iters tb tl : Nat) :
    ∀ execs : List Executor,
      (∀ m ∈ execs, ∃ r, (perform (oracleOf m) opts cps bufs iters tb tl).result = .ok r) →
      (runExecutors oracleOf opts cps bufs iters tb tl execs).2 = none ∧
      (runExecutors oracleOf opts cps bufs iters tb tl execs).1.map Prod.fst = execs := by
  intro execs
  induction execs with
  | nil => intro _; exact ⟨rfl, rfl⟩
  | cons m rest ih =>
      intro h
      obtain ⟨r, hr⟩ := h m (by simp)
      have hrest := ih (by intro m' hm'; exact h m' (by simp [hm']))
      simp only [runExecutors, hr]
      simp [hrest.1, hrest.2]

/-- When the executors before `m` succeed and `m`'s run fails, the
dispatch loop processes exactly the prefix up to and including `m`, in
order, and leaves `m`'s message pending; nothing after `m` runs. -/
lemma runExecutors_err (oracleOf : Executor → Oracle) (opts : ExecuteOptions)
    (cps : Nat) (bufs : List Buffer) (iters tb tl : Nat) :
    ∀ (l1 : List Executor) (m : Executor) (l2 : List Executor) (msg : String),
      (∀ m' ∈ l1, ∃ r, (perform (oracleOf m') opts cps bufs iters tb tl).result = .ok r) →
      (perform (oracleOf m) opts cps bufs iters tb tl).result = .error msg →
      (runExecutors oracleOf opts cps bufs iters tb tl (l1 ++ m :: l2)).2 = some msg ∧
      (runExecutors oracleOf opts cps bufs iters tb tl (l1 ++ m :: l2)).1.map Prod.fst =
        l1 ++ [m] := by
  intro l1
  induction l1 with
  | nil =>
      intro m l2 msg _ hm
      simp [runExecutors, hm]
  | cons m0 rest ih =>
      intro m l2 msg h1 hm
      obtain ⟨r, hr⟩ := h1 m0 (by simp)
      have hrest := ih m l2 msg (by intro m' hm'; exact h1 m' (by simp [hm'])) hm
      simp only [List.cons_append, runExecutors, hr]
      simp [hrest.1, hrest.2]

/-- Projection of a loop result that forgets the wall-clock accumulator,
used to state that everything else is independent of wall time. -/
def dropWall : Except (String × LoopState) LoopState →
    Except (String × PWorld × Nat) (PWorld × Nat)
  | .ok st => .ok (st.w, st.cDur)
  | .error (e, st) => .error (e, st.w, st.cDur)

/-- The inner loop's outcome, call counter and CPU accumulator do not
depend on the oracle's wall-clock durations (nor on the wall accumulator
it starts from). -/
lemma performInner_dropWall (o o1 : Oracle) (opts : ExecuteOptions) (cps : Nat)
    (hout : ∀ k, o1.outcome opts k = o.outcome opts k)
    (hticks : ∀ k, o1.ticks opts k = o.ticks opts k) :
    ∀ (bufs : List Buffer) (w : PWorld) (tD tD1 cD : Nat),
      dropWall (performInner o1 opts cps bufs ⟨w, tD1, cD⟩) =
        dropWall (performInner o opts cps bufs ⟨w, tD, cD⟩) := by
  intro bufs
  induction bufs with
  | nil => intro w tD tD1 cD; rfl
  | cons b rest ih =>
      intro w tD tD1 cD
      have hc : cpuNs o1 opts cps w.k = cpuNs o opts cps w.k := by
        simp [cpuNs, hticks]
      simp only [performInner, measure_parseBody, hout w.k, hc]
      cases o.outcome opts w.k with
      | error e => rfl
      | ok u => exact ih ⟨w.k + 1, .ok u⟩ _ _ _

/-- The outer loop enjoys the same wall-clock independence. -/
lemma performIter_dropWall (o o1 : Oracle) (opts : ExecuteOptions) (cps : Nat)
    (bufs : List Buffer)
    (hout : ∀ k, o1.outcome opts k = o.outcome opts k)
    (hticks : ∀ k, o1.ticks opts k = o.ticks opts k) :
    ∀ (n : Nat) (w : PWorld) (tD tD1 cD : Nat),
      dropWall (performIter o1 opts cps bufs n ⟨w, tD1, cD⟩) =
        dropWall (performIter o opts cps bufs n ⟨w, tD, cD⟩) := by
  intro n
  induction n with
  | zero => intro w tD tD1 cD; rfl
  | succ n ih =>
      intro w tD tD1 cD
      have hinner := performInner_dropWall o o1 opts cps hout hticks bufs w tD tD1 cD
      simp only [performIter]
      rcases h : performInner o opts cps bufs ⟨w, tD, cD⟩ with p | st
      · obtain ⟨e, st1⟩ := p
        rw [h] at hinner
        rcases h1 : performInner o1 opts cps bufs ⟨w, tD1, cD⟩ with p1 | st1'
        · obtain ⟨e1, st2⟩ := p1
          rw [h1] at hinner
          simp only [dropWall] at hinner ⊢
          simp only [Except.error.injEq, Prod.mk.injEq] at hinner
          simp [hinner.1, hinner.2.1, hinner.2.2]
        · rw [h1] at hinner
          simp [dropWall] at hinner
      · rw [h] at hinner
        rcases h1 : performInner o1 opts cps bufs ⟨w, tD1, cD⟩ with p1 | st1'
        · obtain ⟨e1, st2⟩ := p1
          rw [h1] at hinner
          simp [dropWall] at hinner
        · rw [h1] at hinner
          simp only [dropWall, Except.ok.injEq, Prod.mk.injEq] at hinner
          have := ih st.w st.tDur st1'.tDur st.cDur
          rw [show st1' = ⟨st1'.w, st1'.tDur, st1'.cDur⟩ from rfl,
            hinner.1, hinner.2]
          rw [show st = ⟨st.w, st.tDur, st.cDur⟩ from rfl] at this ⊢
          exact this

/-- `perform`'s success, call count, CPU accumulator and throughput
figures are unchanged when only the oracle's wall-clock durations
change. -/
lemma perform_cpu_agree (o o1 : Oracle) (opts : ExecuteOptions) (cps : Nat)
    (bufs : List Buffer) (n tb tl : Nat)
    (hout : ∀ k, o1.outcome opts k = o.outcome opts k)
    (hticks : ∀ k, o1.ticks opts k = o.ticks opts k) :
    (perform o1 opts cps bufs n tb tl).cDur = (perform o opts cps bufs n tb tl).cDur ∧
    (perform o1 opts cps bufs n tb tl).calls = (perform o opts cps bufs n tb tl).calls ∧
    ∀ r r1, (perform o opts cps bufs n tb tl).result = .ok r →
      (perform o1 opts cps bufs n tb tl).result = .ok r1 →
      r1.throughput = r.throughput := by
  have hdrop := performIter_dropWall o o1 opts cps bufs hout hticks n ⟨0, .ok ()⟩ 0 0 0
  rcases h : performIter o opts cps bufs n ⟨⟨0, .ok ()⟩, 0, 0⟩ with p | st
  · obtain ⟨e, st1⟩ := p
    rw [h] at hdrop
    rcases h1 : performIter o1 opts cps bufs n ⟨⟨0, .ok ()⟩, 0, 0⟩ with p1 | st2
    · obtain ⟨e1, st2⟩ := p1
      rw [h1] at hdrop
      simp only [dropWall, Except.error.injEq, Prod.mk.injEq] at hdrop
      rw [perform_eq_error o opts cps bufs n tb tl e st1 h,
        perform_eq_error o1 opts cps bufs n tb tl e1 st2 h1]
      refine ⟨by simp [hdrop.2.2], by simp [hdrop.2.1], ?_⟩
      intro r r1 hr
      simp at hr
    · rw [h1] at hdrop
      simp [dropWall] at hdrop
  · rw [h] at hdrop
    rcases h1 : performIter o1 opts cps bufs n ⟨⟨0, .ok ()⟩, 0, 0⟩ with p1 | st2
    · obtain ⟨e1, st2⟩ := p1
      rw [h1] at hdrop
      simp [dropWall] at hdrop
    · rw [h1] at hdrop
      simp only [dropWall, Except.ok.injEq, Prod.mk.injEq] at hdrop
      rw [perform_eq_ok o opts cps bufs n tb tl st h,
        perform_eq_ok o1 opts cps bufs n tb tl st2 h1]
      refine ⟨by simp [hdrop.2], by simp [hdrop.1], ?_⟩
      intro r r1 hr hr1
      simp only [Except.ok.injEq] at hr hr1
      subst hr
      subst hr1
      simp [hdrop.2]

/-! Spec-side definitions used only to compare the code's behaviour with
the specification's wording, and concrete inputs for witnesses. -/

/-- Follows the spec's words, for comparison with the code: section 4.3
defines byte-throughput as `corpusStats.totalBytes * iterations /
cpuSeconds`, integer-truncated; with CPU time held in nanoseconds the
exact truncated quotient is `totalBytes * iterations * 10^9 / cpuNanos`. -/
def specThroughput (total iterations cpuNanos : Nat) : Nat :=
  total * iterations * 1000000000 / cpuNanos

/-- Follows the spec's words, for comparison with the code: a duration
"rounded to milliseconds", i.e. to the nearest whole millisecond (halves
rounding up). -/
def specRoundMs (ns : Nat) : Nat :=
  (ns + 500000) / 1000000

/-- Concrete oracle whose calls all succeed, each taking `w` wall
nanoseconds and `t` CPU ticks. -/
def constOracle (w t : Nat) : Oracle :=
  { outcome := fun _ _ => .ok ()
    wallNs := fun _ _ => w
    ticks := fun _ _ => t }

/-- Concrete oracle failing at call `j` with message `msg`; other calls
succeed.  Every call takes `w` wall nanoseconds and `t` CPU ticks. -/
def failAtOracle (j : Nat) (msg : String) (w t : Nat) : Oracle :=
  { outcome := fun _ k => if k = j then .error msg else .ok ()
    wallNs := fun _ _ => w
    ticks := fun _ _ => t }

/-- A concrete 3-byte, 1-newline buffer named "a.swift". -/
def bufA : Buffer := ⟨'a' :: dotSwift, [104, 10, 105]⟩

/-- A concrete 2-byte, 2-newline buffer named "b.swift". -/
def bufB : Buffer := ⟨'b' :: dotSwift, [10, 10]⟩

/-- A concrete input path list: the single readable file "a.swift". -/
def demoInputs : List FSNode := [.file ('a' :: dotSwift) (some [104, 10, 105])]

/-- A concrete executor dispatch: LibParse always succeeds in 1 ns of
wall time and 1 tick per call; SwiftParser fails on its first call, as
in a build without the SwiftSyntax backend. -/
def demoOracleOf : Executor → Oracle
  | .SwiftParser => failAtOracle 0 "SwiftParser is not supported" 0 0
  | .LibParse => constOracle 1 1

/-! The claims. -/

/-- C2: for every executor behaviour, every corpus, every options value
and every iteration count, when no parse call fails the run performs
exactly `iterations * corpusSize` timed parse invocations, and the
timing probe invokes its wrapped operation exactly once per `measure`
call. -/
theorem C2_call_count_and_probe_once (o : Oracle) (opts : ExecuteOptions)
    (cps : Nat) (bufs : List Buffer) (n tb tl : Nat)
    (h : ∀ i, i < n * bufs.length → o.outcome opts i = .ok ()) :
    (perform o opts cps bufs n tb tl).calls = n * bufs.length ∧
    ∀ (σ : Type) (C : Clocks σ) (body : σ → σ) (s : σ),
      (measure cps C body s).state = body s := by
  constructor
  · rw [perform_ok o opts cps bufs n tb tl h]
  · intro σ C body s
    rfl

/-- Witness for C2 at a concrete input: two buffers, two iterations, an
always-succeeding oracle; exactly 4 parse calls happen. -/
theorem C2_call_count_and_probe_once_witness :
    (∀ i, i < 2 * ([bufA, bufB] : List Buffer).length →
      (constOracle 5 3).outcome ⟨false⟩ i = .ok ()) ∧
    (perform (constOracle 5 3) ⟨false⟩ 1000000 [bufA, bufB] 2 100 9).calls =
      2 * ([bufA, bufB] : List Buffer).length :=
  ⟨fun _ _ => rfl,
   (C2_call_count_and_probe_once (constOracle 5 3) ⟨false⟩ 1000000 [bufA, bufB]
      2 100 9 (fun _ _ => rfl)).1⟩

/-- C3: for every completed run, the throughput figures are present in
the report if and only if the accumulated CPU time is strictly positive;
at zero accumulated CPU time they are omitted entirely, not printed as
zero. -/
theorem C3_throughput_presence (o : Oracle) (opts : ExecuteOptions)
    (cps : Nat) (bufs : List Buffer) (n tb tl : Nat) (r : Report)
    (h : (perform o opts cps bufs n tb tl).result = .ok r) :
    (r.throughput.isSome ↔ 0 < (perform o opts cps bufs n tb tl).cDur) ∧
    ((perform o opts cps bufs n tb tl).cDur = 0 → r.throughput = none) := by
  obtain ⟨-, -, ht⟩ := perform_result_ok o opts cps bufs n tb tl r h
  constructor
  · rw [ht]
    by_cases hc : 0 < (perform o opts cps bufs n tb tl).cDur <;> simp [hc]
  · intro hz
    rw [ht, hz]
    simp

/-- Witness for C3 at a concrete input: one zero-tick call completes, the
CPU accumulator is 0, and the report carries no throughput. -/
theorem C3_throughput_presence_witness :
    (perform (constOracle 2 0) ⟨false⟩ 1000000 [bufA] 1 3 1).result =
      .ok ⟨0, 0, none⟩ ∧
    ((⟨0, 0, none⟩ : Report).throughput.isSome ↔
      0 < (perform (constOracle 2 0) ⟨false⟩ 1000000 [bufA] 1 3 1).cDur) :=
  ⟨rfl,
   (C3_throughput_presence (constOracle 2 0) ⟨false⟩ 1000000 [bufA] 1 3 1
      ⟨0, 0, none⟩ rfl).1⟩

/-- C4: when the first parse failure is call `j`, the run stops at that
call and propagates its message, no further parse calls happen (the call
counter is exactly `j + 1`), and the accumulated wall and CPU totals are
the sums over the `j` successful calls only — the failing call's measured
durations are not accumulated. -/
theorem C4_failure_stops_and_excludes (o : Oracle) (opts : ExecuteOptions)
    (cps : Nat) (bufs : List Buffer) (n tb tl j : Nat) (msg : String)
    (hj : j < n * bufs.length)
    (herr : o.outcome opts j = .error msg)
    (hok : ∀ i, i < j → o.outcome opts i = .ok ()) :
    (perform o opts cps bufs n tb tl).result = .error msg ∧
    (perform o opts cps bufs n tb tl).calls = j + 1 ∧
    (perform o opts cps bufs n tb tl).tDur = sumTo (o.wallNs opts) j ∧
    (perform o opts cps bufs n tb tl).cDur = sumTo (cpuNs o opts cps) j := by
  rw [perform_err o opts cps bufs n tb tl j msg hj herr hok]
  exact ⟨rfl, rfl, rfl, rfl⟩

/-- Witness for C4 at a concrete input: with two buffers and two
iterations, a failure at call 1 leaves exactly 2 calls made and only
call 0's durations accumulated. -/
theorem C4_failure_stops_and_excludes_witness :
    (1 < 2 * ([bufA, bufB] : List Buffer).length ∧
      (failAtOracle 1 "boom" 7 2).outcome ⟨false⟩ 1 = .error "boom" ∧
      (∀ i, i < 1 → (failAtOracle 1 "boom" 7 2).outcome ⟨false⟩ i = .ok ())) ∧
    ((perform (failAtOracle 1 "boom" 7 2) ⟨false⟩ 1000000 [bufA, bufB] 2 5 3).result =
        .error "boom" ∧
      (perform (failAtOracle 1 "boom" 7 2) ⟨false⟩ 1000000 [bufA, bufB] 2 5 3).calls = 2 ∧
      (perform (failAtOracle 1 "boom" 7 2) ⟨false⟩ 1000000 [bufA, bufB] 2 5 3).tDur =
        sumTo ((failAtOracle 1 "boom" 7 2).wallNs ⟨false⟩) 1 ∧
      (perform (failAtOracle 1 "boom" 7 2) ⟨false⟩ 1000000 [bufA, bufB] 2 5 3).cDur =
        sumTo (cpuNs (failAtOracle 1 "boom" 7 2) ⟨false⟩ 1000000) 1) :=
  ⟨⟨by decide, rfl, fun i hi => by (interval_cases i; rfl)⟩,
   by
    have := C4_failure_stops_and_excludes (failAtOracle 1 "boom" 7 2) ⟨false⟩
      1000000 [bufA, bufB] 2 5 3 1 "boom" (by decide) rfl
      (fun i hi => by (interval_cases i; rfl))
    exact ⟨this.1, this.2.1, this.2.2.1, this.2.2.2⟩⟩

/-- C6: for every executor behaviour and options value, running on an
empty corpus or with zero iterations succeeds with a report of zero
durations and no throughput lines, and makes no parse calls. -/
theorem C6_empty_corpus_or_zero_iterations (o : Oracle) (opts : ExecuteOptions)
    (cps tb tl : Nat) :
    (∀ bufs, perform o opts cps bufs 0 tb tl =
      { result := .ok ⟨0, 0, none⟩, calls := 0, tDur := 0, cDur := 0 }) ∧
    (∀ n, perform o opts cps [] n tb tl =
      { result := .ok ⟨0, 0, none⟩, calls := 0, tDur := 0, cDur := 0 }) := by
  refine ⟨fun bufs => rfl, fun n => ?_⟩
  rw [perform_eq_ok o opts cps [] n tb tl ⟨⟨0, .ok ()⟩, 0, 0⟩
    (performIter_nil o opts cps n ⟨⟨0, .ok ()⟩, 0, 0⟩)]
  rfl

/-- C1 counterexample: a completed run with 2 iterations over a corpus
passed in as 100 bytes / 7 lines, accumulating exactly one CPU-second.
The printed byte-throughput is 100, but the spec's formula
`totalBytes * iterations / cpuSeconds` gives 200: the code divides the
single-pass corpus size by the total CPU time and never multiplies by the
iteration count. -/
theorem C1_counterexample :
    (perform (constOracle 0 500000000) ⟨false⟩ 1000000000 [bufA] 2 100 7).result =
      .ok ⟨0, 1000, some (100, 7)⟩ ∧
    (perform (constOracle 0 500000000) ⟨false⟩ 1000000000 [bufA] 2 100 7).cDur =
      1000000000 ∧
    specThroughput 100 2 1000000000 = 200 ∧
    (100 : Nat) ≠ 200 ∧
    specThroughput 7 2 1000000000 = 14 ∧
    (7 : Nat) ≠ 14 :=
  ⟨rfl, rfl, rfl, by decide, rfl, by decide⟩

/-- C1 (amended): for every completed run with positive accumulated CPU
time, the printed byte- and line-throughputs equal
`total * 10^9 / cpuNanos` (that is, `total / cpuSeconds`,
integer-truncated, with no iteration factor), computed from the
accumulated CPU time; they are unchanged under any change to the
oracle's wall-clock durations, so they are never computed from wall
time. -/
theorem C1_throughput_from_cpu (o : Oracle) (opts : ExecuteOptions)
    (cps : Nat) (bufs : List Buffer) (n tb tl : Nat) (r : Report)
    (h : (perform o opts cps bufs n tb tl).result = .ok r)
    (hc : 0 < (perform o opts cps bufs n tb tl).cDur) :
    r.throughput = some (tb * 1000000000 / (perform o opts cps bufs n tb tl).cDur,
                         tl * 1000000000 / (perform o opts cps bufs n tb tl).cDur) ∧
    ∀ o1 : Oracle, (∀ k, o1.outcome opts k = o.outcome opts k) →
      (∀ k, o1.ticks opts k = o.ticks opts k) →
      ∀ r1 : Report, (perform o1 opts cps bufs n tb tl).result = .ok r1 →
        r1.throughput = r.throughput := by
  obtain ⟨-, -, ht⟩ := perform_result_ok o opts cps bufs n tb tl r h
  constructor
  · rw [ht]
    simp [hc]
  · intro o1 h1 h2 r1 hr1
    exact (perform_cpu_agree o o1 opts cps bufs n tb tl h1 h2).2.2 r r1 h hr1

/-- Witness for C1 (amended) at a concrete input: one 1-tick call at
nanosecond clock resolution; throughput is total * 10^9 / 1. -/
theorem C1_throughput_from_cpu_witness :
    (perform (constOracle 3 1) ⟨false⟩ 1000000000 [bufA] 1 5 2).result =
      .ok ⟨0, 0, some (5000000000, 2000000000)⟩ ∧
    0 < (perform (constOracle 3 1) ⟨false⟩ 1000000000 [bufA] 1 5 2).cDur ∧
    (⟨0, 0, some (5000000000, 2000000000)⟩ : Report).throughput =
      some (5 * 1000000000 / (perform (constOracle 3 1) ⟨false⟩ 1000000000 [bufA] 1 5 2).cDur,
            2 * 1000000000 / (perform (constOracle 3 1) ⟨false⟩ 1000000000 [bufA] 1 5 2).cDur) :=
  ⟨rfl, by decide,
   (C1_throughput_from_cpu (constOracle 3 1) ⟨false⟩ 1000000000 [bufA] 1 5 2
      ⟨0, 0, some (5000000000, 2000000000)⟩ rfl (by decide)).1⟩

/-- C7 counterexample: a completed run accumulating 1.5 ms of wall time
prints wall-ms 1 (truncation), while rounding 1'500'000 ns to
milliseconds gives 2. -/
theorem C7_counterexample :
    (perform (constOracle 1500000 0) ⟨false⟩ 1000000 [bufA] 1 0 0).result =
      .ok ⟨1, 0, none⟩ ∧
    (perform (constOracle 1500000 0) ⟨false⟩ 1000000 [bufA] 1 0 0).tDur = 1500000 ∧
    specRoundMs 1500000 = 2 ∧
    (1 : Nat) ≠ 2 :=
  ⟨rfl, rfl, rfl, by decide⟩

/-- C7 (amended): for every completed run, the printed wall-ms value is
the total accumulated wall duration truncated to whole milliseconds
(integer division by 10^6, not rounding to nearest), and likewise the
cpu-ms value for the accumulated CPU duration. -/
theorem C7_ms_truncated (o : Oracle) (opts : ExecuteOptions) (cps : Nat)
    (bufs : List Buffer) (n tb tl : Nat) (r : Report)
    (h : (perform o opts cps bufs n tb tl).result = .ok r) :
    r.wallMs = (perform o opts cps bufs n tb tl).tDur / 1000000 ∧
    r.cpuMs = (perform o opts cps bufs n tb tl).cDur / 1000000 := by
  obtain ⟨h1, h2, -⟩ := perform_result_ok o opts cps bufs n tb tl r h
  exact ⟨h1, h2⟩

/-- Witness for C7 (amended) at a concrete input: 2.5 ms of wall time
and 3000 ns of CPU time print as 2 ms and 0 ms. -/
theorem C7_ms_truncated_witness :
    (perform (constOracle 2500000 3) ⟨false⟩ 1000000 [bufA] 1 3 0).result =
      .ok ⟨2, 0, some (1000000, 0)⟩ ∧
    (⟨2, 0, some (1000000, 0)⟩ : Report).wallMs =
      (perform (constOracle 2500000 3) ⟨false⟩ 1000000 [bufA] 1 3 0).tDur / 1000000 ∧
    (⟨2, 0, some (1000000, 0)⟩ : Report).cpuMs =
      (perform (constOracle 2500000 3) ⟨false⟩ 1000000 [bufA] 1 3 0).cDur / 1000000 :=
  ⟨rfl,
   (C7_ms_truncated (constOracle 2500000 3) ⟨false⟩ 1000000 [bufA] 1 3 0
      ⟨2, 0, some (1000000, 0)⟩ rfl).1,
   (C7_ms_truncated (constOracle 2500000 3) ⟨false⟩ 1000000 [bufA] 1 3 0
      ⟨2, 0, some (1000000, 0)⟩ rfl).2⟩

/-- C5: the controller processes the selected executors in caller order.
If every selected executor's run succeeds it exits with status 0 and an
empty error stream, having processed all of them in order.  On the first
executor whose run fails it processes no further executors, writes the
diagnostic `error: <message>` to the error stream, and exits with
status 1. -/
theorem C5_controller_order_and_exit (oracleOf : Executor → Oracle)
    (cps iters : Nat) (skipBodies : Bool) (inputs : List FSNode) :
    (∀ execs : List Executor,
      (∀ m ∈ execs, ∃ r,
        (perform (oracleOf m) ⟨skipBodies⟩ cps (loadSources inputs []) iters
          (byteCount (loadSources inputs []))
          (lineCount (loadSources inputs []))).result = .ok r) →
      (swift_parse_test_main oracleOf cps execs iters skipBodies inputs).status = 0 ∧
      (swift_parse_test_main oracleOf cps execs iters skipBodies inputs).errLines = [] ∧
      (swift_parse_test_main oracleOf cps execs iters skipBodies
          inputs).trace.map Prod.fst = execs) ∧
    (∀ (l1 : List Executor) (m : Executor) (l2 : List Executor) (msg : String),
      (∀ m1 ∈ l1, ∃ r,
        (perform (oracleOf m1) ⟨skipBodies⟩ cps (loadSources inputs []) iters
          (byteCount (loadSources inputs []))
          (lineCount (loadSources inputs []))).result = .ok r) →
      (perform (oracleOf m) ⟨skipBodies⟩ cps (loadSources inputs []) iters
        (byteCount (loadSources inputs []))
        (lineCount (loadSources inputs []))).result = .error msg →
      (swift_parse_test_main oracleOf cps (l1 ++ m :: l2) iters skipBodies
        inputs).status = 1 ∧
      (swift_parse_test_main oracleOf cps (l1 ++ m :: l2) iters skipBodies
        inputs).errLines = ["error: " ++ msg] ∧
      (swift_parse_test_main oracleOf cps (l1 ++ m :: l2) iters skipBodies
        inputs).trace.map Prod.fst = l1 ++ [m]) := by
  constructor
  · intro execs h
    have hall := runExecutors_all_ok oracleOf ⟨skipBodies⟩ cps
      (loadSources inputs []) iters (byteCount (loadSources inputs []))
      (lineCount (loadSources inputs [])) execs h
    simp only [swift_parse_test_main]
    rcases hre : runExecutors oracleOf ⟨skipBodies⟩ cps (loadSources inputs [])
      iters (byteCount (loadSources inputs []))
      (lineCount (loadSources inputs [])) execs with ⟨tr, e⟩
    rw [hre] at hall
    obtain ⟨h2, h1⟩ := hall
    simp only at h2 h1
    subst h2
    exact ⟨rfl, rfl, h1⟩
  · intro l1 m l2 msg h1 hm
    have hall := runExecutors_err oracleOf ⟨skipBodies⟩ cps
      (loadSources inputs []) iters (byteCount (loadSources inputs []))
      (lineCount (loadSources inputs [])) l1 m l2 msg h1 hm
    simp only [swift_parse_test_main]
    rcases hre : runExecutors oracleOf ⟨skipBodies⟩ cps (loadSources inputs [])
      iters (byteCount (loadSources inputs []))
      (lineCount (loadSources inputs [])) (l1 ++ m :: l2) with ⟨tr, e⟩
    rw [hre] at hall
    obtain ⟨h2, h3⟩ := hall
    simp only at h2 h3
    subst h2
    exact ⟨rfl, rfl, h3⟩

/-- Witness for C5 at concrete inputs: with LibParse succeeding and
SwiftParser unavailable, `[LibParse]` exits 0 having run it, and
`[LibParse, SwiftParser, LibParse]` stops after SwiftParser with the
diagnostic and exit status 1, never reaching the third executor. -/
theorem C5_controller_order_and_exit_witness :
    (perform (demoOracleOf .LibParse) ⟨false⟩ 1000000 (loadSources demoInputs []) 1
      (byteCount (loadSources demoInputs []))
      (lineCount (loadSources demoInputs []))).result =
        .ok ⟨0, 0, some (3000000, 1000000)⟩ ∧
    (perform (demoOracleOf .SwiftParser) ⟨false⟩ 1000000 (loadSources demoInputs []) 1
      (byteCount (loadSources demoInputs []))
      (lineCount (loadSources demoInputs []))).result =
        .error "SwiftParser is not supported" ∧
    ((swift_parse_test_main demoOracleOf 1000000 [.LibParse] 1 false
        demoInputs).status = 0 ∧
      (swift_parse_test_main demoOracleOf 1000000 [.LibParse] 1 false
        demoInputs).errLines = [] ∧
      (swift_parse_test_main demoOracleOf 1000000 [.LibParse] 1 false
        demoInputs).trace.map Prod.fst = [.LibParse]) ∧
    ((swift_parse_test_main demoOracleOf 1000000 [.LibParse, .SwiftParser, .LibParse]
        1 false demoInputs).status = 1 ∧
      (swift_parse_test_main demoOracleOf 1000000 [.LibParse, .SwiftParser, .LibParse]
        1 false demoInputs).errLines = ["error: SwiftParser is not supported"] ∧
      (swift_parse_test_main demoOracleOf 1000000 [.LibParse, .SwiftParser, .LibParse]
        1 false demoInputs).trace.map Prod.fst = [.LibParse, .SwiftParser]) := by
  have hok : ∀ m ∈ ([.LibParse] : List Executor), ∃ r,
      (perform (demoOracleOf m) ⟨false⟩ 1000000 (loadSources demoInputs []) 1
        (byteCount (loadSources demoInputs []))
        (lineCount (loadSources demoInputs []))).result = .ok r := by
    intro m hm
    simp only [List.mem_singleton] at hm
    subst hm
    exact ⟨⟨0, 0, some (3000000, 1000000)⟩, rfl⟩
  refine ⟨rfl, rfl, ?_, ?_⟩
  · exact (C5_controller_order_and_exit demoOracleOf 1000000 1 false demoInputs).1
      [.LibParse] hok
  · exact (C5_controller_order_and_exit demoOracleOf 1000000 1 false demoInputs).2
      [.LibParse] .SwiftParser [.LibParse] "SwiftParser is not supported" hok rfl

/-- C8: an unreadable listed path contributes no buffer, and corpus
assembly continues with the remaining paths exactly as if the unreadable
path had not been listed; nothing is aborted. -/
theorem C8_unreadable_path_skipped (p : List Char) (xs ys : List FSNode)
    (bufs : List Buffer) :
    loadSources (xs ++ FSNode.file p none :: ys) bufs =
      loadSources (xs ++ ys) bufs := by
  simp only [loadSources]
  rw [loadSwiftFilesList_append xs (FSNode.file p none :: ys) bufs,
    loadSwiftFilesList_append xs ys bufs]
  simp only [loadSwiftFilesList, loadSwiftFilesRecursively_unreadable]

/-- C9: the corpus statistics are accumulated in 32-bit unsigned
integers, so the reported byte and line totals are the true totals
reduced modulo `2^32`; whenever a true total reaches `2^32` the reported
total differs from it (it has wrapped around). -/
theorem C9_stats_wrap_mod_2_32 (bufs : List Buffer) :
    byteCount bufs = (bufs.map Buffer.size).sum % 4294967296 ∧
    lineCount bufs = (bufs.map Buffer.newlines).sum % 4294967296 ∧
    (4294967296 ≤ (bufs.map Buffer.size).sum →
      byteCount bufs ≠ (bufs.map Buffer.size).sum) ∧
    (4294967296 ≤ (bufs.map Buffer.newlines).sum →
      lineCount bufs ≠ (bufs.map Buffer.newlines).sum) := by
  refine ⟨byteCount_eq bufs, lineCount_eq bufs, ?_, ?_⟩
  · intro hge
    rw [byteCount_eq bufs]
    have := Nat.mod_lt (bufs.map Buffer.size).sum
      (show 0 < 4294967296 by omega)
    omega
  · intro hge
    rw [lineCount_eq bufs]
    have := Nat.mod_lt (bufs.map Buffer.newlines).sum
      (show 0 < 4294967296 by omega)
    omega

/-- Witness for C9 at a concrete corpus of one buffer holding `2^32`
newline bytes: both true totals are `2^32`, both reported totals are 0. -/
theorem C9_stats_wrap_mod_2_32_witness :
    4294967296 ≤ (([⟨['a'], List.replicate 4294967296 10⟩] : List Buffer).map
      Buffer.size).sum ∧
    4294967296 ≤ (([⟨['a'], List.replicate 4294967296 10⟩] : List Buffer).map
      Buffer.newlines).sum ∧
    byteCount [⟨['a'], List.replicate 4294967296 10⟩] ≠
      (([⟨['a'], List.replicate 4294967296 10⟩] : List Buffer).map Buffer.size).sum ∧
    lineCount [⟨['a'], List.replicate 4294967296 10⟩] ≠
      (([⟨['a'], List.replicate 4294967296 10⟩] : List Buffer).map
        Buffer.newlines).sum := by
  have hsize : (([⟨['a'], List.replicate 4294967296 10⟩] : List Buffer).map
      Buffer.size).sum = 4294967296 := by
    simp only [List.map_cons, List.map_nil, List.sum_cons, List.sum_nil,
      Buffer.size, List.length_replicate, Nat.add_zero]
  have hlines : (([⟨['a'], List.replicate 4294967296 10⟩] : List Buffer).map
      Buffer.newlines).sum = 4294967296 := by
    simp only [List.map_cons, List.map_nil, List.sum_cons, List.sum_nil,
      Buffer.newlines, List.count_replicate_self, Nat.add_zero]
  have hmain := C9_stats_wrap_mod_2_32 [⟨['a'], List.replicate 4294967296 10⟩]
  exact ⟨by rw [hsize], by rw [hlines],
    hmain.2.2.1 (by rw [hsize]), hmain.2.2.2 (by rw [hlines])⟩

/-- C10: a non-directory input is loaded into the corpus only when its
path ends in ".swift": a readable ".swift" file is appended, and a file
whose path lacks the suffix is silently excluded even when listed
explicitly. -/
theorem C10_swift_suffix_required (p : List Char) (c : Option (List Nat))
    (bufs : List Buffer) :
    (endswith p dotSwift = false →
      loadSwiftFilesRecursively (.file p c) bufs = bufs) ∧
    (∀ bytes, c = some bytes → endswith p dotSwift = true →
      loadSwiftFilesRecursively (.file p c) bufs = bufs ++ [⟨p, bytes⟩]) := by
  constructor
  · intro h
    simp [loadSwiftFilesRecursively, h]
  · intro bytes hc h
    subst hc
    simp [loadSwiftFilesRecursively, h]

/-- Witness for C10 at concrete paths: "a.txt" is excluded despite being
readable; "a.swift" is loaded. -/
theorem C10_swift_suffix_required_witness :
    endswith "a.txt".toList dotSwift = false ∧
    loadSwiftFilesRecursively (.file "a.txt".toList (some [1])) [] = [] ∧
    endswith ('a' :: dotSwift) dotSwift = true ∧
    loadSwiftFilesRecursively (.file ('a' :: dotSwift) (some [2])) [] =
      [⟨'a' :: dotSwift, [2]⟩] :=
  ⟨by decide,
   (C10_swift_suffix_required "a.txt".toList (some [1]) []).1 (by decide),
   by decide,
   by
    have := (C10_swift_suffix_required ('a' :: dotSwift) (some [2]) []).2
      [2] rfl (by decide)
    simpa using this⟩

end SwiftParseTest
